import Mathlib

/-!
Shallow embedding of the "VS Code AI" extension (TypeScript sources under
src/): the adapter registry, the local explainer stub, the timeout guard,
the output-limiting presenter and the command lifecycle of
src/extension.ts.  Text is modelled as `List Char`; the JavaScript string
split on the regular expression matching an optional carriage return
followed by a newline is modelled by `splitLines`.
-/

/-! ## Text model: JavaScript split on the line-break pattern -/

/-- JavaScript `s.split(/\r?\n/)` over a list of characters: a newline ends a
segment, consuming an immediately preceding carriage return; a lone carriage
return is ordinary text.  The empty string yields one empty segment. -/
def splitLines : List Char → List (List Char)
  | [] => [[]]
  | '\r' :: '\n' :: rest => [] :: splitLines rest
  | '\n' :: rest => [] :: splitLines rest
  | c :: rest =>
    match splitLines rest with
    | [] => [[c]]
    | s :: ss => (c :: s) :: ss

/-- JavaScript `lines.join("\n")`. -/
def joinLines : List (List Char) → List Char
  | [] => []
  | [l] => l
  | l :: ls => l ++ '\n' :: joinLines ls

theorem splitLines_ne_nil (s : List Char) : splitLines s ≠ [] := by
  induction s using splitLines.induct with
  | case1 => simp [splitLines]
  | case2 rest ih => simp [splitLines]
  | case3 rest ih => simp [splitLines]
  | case4 c rest h1 h2 hnil ih => simp [splitLines, hnil]
  | case5 c rest h1 h2 s ss hcons ih => simp [splitLines, hcons]

/-- The number of split segments is one more than the number of newline
characters. -/
theorem splitLines_length (s : List Char) :
    (splitLines s).length = 1 + s.count '\n' := by
  induction s using splitLines.induct with
  | case1 => simp [splitLines]
  | case2 rest ih =>
    simp [splitLines, ih, List.count_cons]
    omega
  | case3 rest ih =>
    simp [splitLines, ih, List.count_cons]
    omega
  | case4 c rest h1 h2 hnil ih =>
    exact absurd hnil (splitLines_ne_nil rest)
  | case5 c rest h1 h2 s ss hcons ih =>
    have hc : c ≠ '\n' := fun h => h2 h
    simp only [splitLines, hcons, List.length_cons]
    rw [hcons] at ih
    simp only [List.length_cons] at ih
    simp [List.count_cons, hc]
    omega

/-- No split segment contains a newline character. -/
theorem splitLines_no_newline (s : List Char) :
    ∀ l ∈ splitLines s, '\n' ∉ l := by
  induction s using splitLines.induct with
  | case1 => simp [splitLines]
  | case2 rest ih => simpa [splitLines] using ih
  | case3 rest ih => simpa [splitLines] using ih
  | case4 c rest h1 h2 hnil ih =>
    exact absurd hnil (splitLines_ne_nil rest)
  | case5 c rest h1 h2 s ss hcons ih =>
    have hc : c ≠ '\n' := fun h => h2 h
    rw [hcons] at ih
    simp only [splitLines, hcons]
    intro l hl
    rcases List.mem_cons.mp hl with hl | hl
    · subst hl
      simp only [List.mem_cons]
      rintro (h | h)
      · exact hc h.symm
      · exact ih s (List.mem_cons_self s ss) h
    · exact ih l (List.mem_cons_of_mem s hl)

/-- Counting newlines in a join of newline-free segments. -/
theorem joinLines_count (ls : List (List Char)) (h : ∀ l ∈ ls, '\n' ∉ l) :
    (joinLines ls).count '\n' + 1 = ls.length + (if ls = [] then 1 else 0) := by
  induction ls with
  | nil => simp [joinLines]
  | cons l ls ih =>
    match ls, ih with
    | [], _ =>
      have : (l.count '\n') = 0 :=
        List.count_eq_zero.mpr (h l (List.mem_cons_self l []))
      simp [joinLines, this]
    | l2 :: ls2, ih =>
      have hl : (l.count '\n') = 0 :=
        List.count_eq_zero.mpr (h l (List.mem_cons_self l _))
      have ih2 := ih (fun x hx => h x (List.mem_cons_of_mem l hx))
      simp only [joinLines, List.count_append, List.count_cons, hl]
      simp only [joinLines] at ih2
      simp at ih2 ⊢
      omega

/-- Join after split never lengthens the text (CRLF separators shrink to LF). -/
theorem joinLines_splitLines_length (s : List Char) :
    (joinLines (splitLines s)).length ≤ s.length := by
  induction s using splitLines.induct with
  | case1 => simp [splitLines, joinLines]
  | case2 rest ih =>
    have hne := splitLines_ne_nil rest
    simp only [splitLines]
    match h : splitLines rest, ih with
    | [], _ => exact absurd h hne
    | l :: ls, ih =>
      simp only [joinLines, List.length_cons, List.nil_append]
      omega
  | case3 rest ih =>
    have hne := splitLines_ne_nil rest
    simp only [splitLines]
    match h : splitLines rest, ih with
    | [], _ => exact absurd h hne
    | l :: ls, ih =>
      simp only [joinLines, List.length_cons, List.nil_append]
      omega
  | case4 c rest h1 h2 hnil ih =>
    exact absurd hnil (splitLines_ne_nil rest)
  | case5 c rest h1 h2 s' ss hcons ih =>
    rw [hcons] at ih
    simp only [splitLines, hcons]
    match ss, ih with
    | [], ih =>
      simp only [joinLines, List.length_cons] at ih ⊢
      omega
    | s2 :: ss2, ih =>
      simp only [joinLines, List.cons_append, List.length_cons,
        List.length_append] at ih ⊢
      omega

/-- Taking a prefix of the segments never lengthens the join. -/
theorem joinLines_take_length (ls : List (List Char)) (k : Nat) :
    (joinLines (ls.take k)).length ≤ (joinLines ls).length := by
  induction ls generalizing k with
  | nil => simp
  | cons l ls ih =>
    match k with
    | 0 => simp [joinLines]
    | k + 1 =>
      match ls with
      | [] => simp
      | l2 :: ls2 =>
        simp only [List.take_succ_cons]
        match h : (l2 :: ls2).take k with
        | [] => simp [joinLines]
        | t :: ts =>
          have := ih k
          rw [h] at this
          simp only [joinLines, List.length_append, List.length_cons] at this ⊢
          omega

/-! ## Adapter registry (src/ai/registry.ts)

An adapter is modelled by its identifier and the value of its availability
predicate; the explainer factory is not needed for registry resolution. -/

structure AIAdapter where
  id : String
  isAvailable : Bool
deriving DecidableEq

inductive RegistryError
  /-- `Selected AI adapter '<id>' is not registered.` -/
  | unknownAdapter (id : String)
  /-- `Selected AI adapter '<id>' is not available.` -/
  | adapterUnavailable (id : String)
deriving DecidableEq

/-- The adapter the registry constructor registers: `new LocalAIAdapter()`,
with `id = "local"` and `isAvailable()` returning `true`. -/
def LocalAIAdapter : AIAdapter := ⟨"local", true⟩

/-- The registry's adapter list as built by its constructor. -/
def registeredAdapters : List AIAdapter := [LocalAIAdapter]

/-- `AIAdapterRegistry.getActiveAdapter`: reads the configured adapter id
(`config.get("adapter", "local")`, i.e. the setting with default `"local"`),
looks it up by id, and fails if it is missing or unavailable. -/
def getActiveAdapter (adapters : List AIAdapter) (configured : Option String) :
    Except RegistryError AIAdapter :=
  let selectedId := configured.getD "local"
  match adapters.find? (fun a => a.id == selectedId) with
  | none => .error (.unknownAdapter selectedId)
  | some adapter =>
    if adapter.isAvailable then .ok adapter
    else .error (.adapterUnavailable selectedId)

/-! ## Local explainer stub (src/ai/localProvider.ts) -/

structure ExplainOptions where
  maxLength : Option Nat := none
  language : Option (List Char) := none

/-- The report string built by `LocalExplainerStub.explain`: the fixed
placeholder sentence, the optional language line, then the line and
character counts, joined by newlines (the `filter(Boolean)` drops the
absent language line). -/
def explainReport (language : Option (List Char)) (lines chars : Nat) :
    List Char :=
  joinLines (List.filterMap id
    [some ("Local placeholder explanation (no AI used).".data),
     language.map (fun l => "Language: ".data ++ l),
     some ("Lines: ".data ++ Nat.toDigits 10 lines),
     some ("Characters: ".data ++ Nat.toDigits 10 chars)])

/-- `LocalExplainerStub.explain`: computes the segment count of the input
split on the line-break pattern and the input length, and always fulfils
with the report. -/
def LocalExplainerStub.explain (input : List Char) (options : ExplainOptions) :
    Except (List Char) (List Char) :=
  let lines := (splitLines input).length
  let chars := input.length
  Except.ok (explainReport options.language lines chars)

/-! ## Timeout guard (withTimeout in src/extension.ts)

The guard races the wrapped promise against a `setTimeout` timer and clears
the timer in a `finally` block.  The model processes the two race events in
time order over an explicit state. -/

/-- How and when the wrapped promise settles. -/
inductive Settled (ε α : Type)
  | fulfilled (v : α)
  | rejected (e : ε)
deriving DecidableEq

/-- Settlement of the `Promise.race`: the operation's value, the
operation's rejection reason, or the rejection with `new Error("TIMEOUT")`. -/
inductive WTOutcome (ε α : Type)
  | ok (v : α)
  | opError (e : ε)
  | timeoutError
deriving DecidableEq

def settledOutcome : Settled ε α → WTOutcome ε α
  | .fulfilled v => .ok v
  | .rejected e => .opError e

structure WTState (ε α : Type) where
  /-- settlement of `Promise.race`, once decided; a promise settles once -/
  raceOutcome : Option (WTOutcome ε α)
  /-- number of invocations of the `onTimeout` callback -/
  cbCalls : Nat
  /-- whether the timer is still pending (neither fired nor cleared) -/
  timerPending : Bool
deriving DecidableEq

/-- The wrapped operation settles.  If the race is still open it is decided
by the operation's outcome and the `finally` block clears the timer; if the
race was already decided (the timeout won) the late settlement is ignored
entirely. -/
def opSettle (outcome : Settled ε α) (s : WTState ε α) : WTState ε α :=
  match s.raceOutcome with
  | some _ => s
  | none =>
    { raceOutcome := some (settledOutcome outcome),
      cbCalls := s.cbCalls,
      timerPending := false }

/-- The deadline timer fires: only possible while pending; runs `onTimeout`
once, rejects the race with the TIMEOUT error if it is still open, and the
timer is no longer pending (the later `finally` clearTimeout is a no-op). -/
def timerFire (s : WTState ε α) : WTState ε α :=
  if s.timerPending then
    { raceOutcome := match s.raceOutcome with
        | some r => some r
        | none => some .timeoutError,
      cbCalls := s.cbCalls + 1,
      timerPending := false }
  else s

/-- `withTimeout(promise, ms, onTimeout)`, as a function of the time at
which the promise settles.  When `settleTime < ms` the operation settles
first and its `finally` clears the still-pending timer, so the timer event
at `ms` finds the timer no longer pending; otherwise the timer fires at
`ms` and the operation's later settlement is processed against an
already-decided race. -/
def withTimeout (settleTime ms : Nat) (outcome : Settled ε α) : WTState ε α :=
  let s0 : WTState ε α := ⟨none, 0, true⟩
  if settleTime < ms then timerFire (opSettle outcome s0)
  else opSettle outcome (timerFire s0)

/-! ## Output limiting and presentation (src/extension.ts, v3 section) -/

def MAX_EXPLANATION_LINES : Nat := 12
def MAX_EXPLANATION_CHARS : Nat := 500

structure LimitedExplanation where
  text : List Char
  truncated : Bool
deriving DecidableEq

/-- `limitExplanation`: slice to the character limit first, then split the
result on the line-break pattern and keep at most the line limit, rejoining
with a bare newline; the truncation flag records whether either step fired. -/
def limitExplanation (text : List Char) : LimitedExplanation :=
  let limitedByChars :=
    if text.length > MAX_EXPLANATION_CHARS then text.take MAX_EXPLANATION_CHARS
    else text
  let lines := splitLines limitedByChars
  if lines.length > MAX_EXPLANATION_LINES then
    { text := joinLines (lines.take MAX_EXPLANATION_LINES), truncated := true }
  else
    { text := limitedByChars,
      truncated := decide (text.length > MAX_EXPLANATION_CHARS) }

structure PresentMeta where
  language : List Char
  lines : Nat
  characters : Nat
deriving DecidableEq

/-- `presentExplanation`: the sequence of `appendLine` calls written to the
explanation output channel. -/
def presentExplanation (explanation : List Char) (meta : PresentMeta) :
    List (List Char) :=
  let limited := limitExplanation explanation
  ["=== AI Explanation ===".data, [], "Summary:".data, limited.text]
  ++ (if limited.truncated then [[], "[Output truncated]".data] else [])
  ++ [[], "Metadata:".data,
      "- Language: ".data ++ meta.language,
      "- Lines: ".data ++ Nat.toDigits 10 meta.lines,
      "- Characters: ".data ++ Nat.toDigits 10 meta.characters]

/-! ## Command lifecycle (activate, explainSelection, explainActiveFile)

Each command handler is modelled as a pure function from an environment
(the values the external collaborators would supply: settings, editor
contents, the consent answer, and how the explainer's promise settles) to a
trace of its observable effects. -/

/-- Arguments of `status.set` calls. -/
inductive Status
  | ready
  | explaining
  | completed
  | cancelled
  /-- `Disabled (invalid adapter)` -/
  | disabledInvalid
deriving DecidableEq

/-- The log lines written through the local logger. -/
inductive LogEntry
  /-- `[WARN] AI is disabled in settings.` -/
  | warnDisabled
  /-- `[WARN] No active editor.` -/
  | warnNoEditor
  /-- `[WARN] No code selected.` -/
  | warnNoSelection
  /-- `[WARN] Explanation timed out.` -/
  | warnTimeout
  /-- `[WARN]` with the adapter-resolution error message, at activation -/
  | warnActivation
  /-- `[INFO] Extension activated. Using adapter: ...` -/
  | infoActivated
deriving DecidableEq

/-- The consent prompt's result: `showInformationMessage` resolves with the
chosen button or with `undefined` on dismissal. -/
inductive ConsentAnswer
  | yes
  | no
  | dismissed
deriving DecidableEq

/-- Observable effects of one command invocation. -/
structure Trace where
  /-- arguments of `status.set`, in order -/
  statusUpdates : List Status := []
  /-- logger entries, in order -/
  logs : List LogEntry := []
  /-- number of `showWarningMessage` calls -/
  warnMessages : Nat := 0
  /-- number of `showErrorMessage` calls -/
  errorMessages : Nat := 0
  /-- number of reads of the `enableAI` setting -/
  flagReads : Nat := 0
  /-- number of modal consent prompts shown -/
  consentPrompts : Nat := 0
  /-- number of `explainer.explain` invocations -/
  adapterCalls : Nat := 0
  /-- the text passed to `explainer.explain`, when called -/
  adapterInput : Option (List Char) := none
  /-- the rendered report, when one was presented -/
  presented : Option (List (List Char)) := none
deriving DecidableEq

/-- Environment of one `explainSelection` invocation.  `editor = none`
models no active editor; `editor = some sel` models an active editor whose
current selection spans exactly the text `sel` (the selection is empty iff
`sel` is empty). -/
structure SelectionEnv where
  explainerPresent : Bool
  enabled : Bool
  editor : Option (List Char)
  consent : ConsentAnswer
  settleTime : Nat
  outcome : Settled (List Char) (List Char)
  languageId : List Char

/-- Environment of one `explainActiveFile` invocation; `document` is the
full text of the active document, if any. -/
structure FileEnv where
  explainerPresent : Bool
  enabled : Bool
  document : Option (List Char)
  consent : ConsentAnswer
  settleTime : Nat
  outcome : Settled (List Char) (List Char)
  languageId : List Char

/-- Result of the `getSelectedText` helper together with its side effects. -/
structure SelTextResult where
  text : Option (List Char)
  logs : List LogEntry
  warnMessages : Nat

/-- `getSelectedText`: `null` with a warning when there is no active editor
or the selection is empty, otherwise the selected text. -/
def getSelectedText : Option (List Char) → SelTextResult
  | none => ⟨none, [.warnNoEditor], 1⟩
  | some [] => ⟨none, [.warnNoSelection], 1⟩
  | some (c :: cs) => ⟨some (c :: cs), [], 0⟩

/-- The shared explaining phase of both commands: sets status `Explaining`,
calls `explainer.explain` under `withTimeout` with the fixed 2000 ms
deadline, and either presents the result and sets `Completed`, or is caught
by the bare `catch` which only sets `Cancelled`.  The `onTimeout` callback
(when it ran) logged a warning, set `Cancelled` and showed a warning
message before the guard rejected. -/
def explainPhase (text lang : List Char) (settleTime : Nat)
    (outcome : Settled (List Char) (List Char)) : Trace :=
  let wt := withTimeout settleTime 2000 outcome
  let cbStatus : List Status := if wt.cbCalls = 0 then [] else [.cancelled]
  let cbLogs : List LogEntry := if wt.cbCalls = 0 then [] else [.warnTimeout]
  match wt.raceOutcome.getD .timeoutError with
  | .ok result =>
    { statusUpdates := [.explaining] ++ cbStatus ++ [.completed],
      logs := cbLogs, warnMessages := wt.cbCalls,
      flagReads := 1, consentPrompts := 1,
      adapterCalls := 1, adapterInput := some text,
      presented := some (presentExplanation result
        ⟨lang, (splitLines text).length, text.length⟩) }
  | .opError _ =>
    { statusUpdates := [.explaining] ++ cbStatus ++ [.cancelled],
      logs := cbLogs, warnMessages := wt.cbCalls,
      flagReads := 1, consentPrompts := 1,
      adapterCalls := 1, adapterInput := some text }
  | .timeoutError =>
    { statusUpdates := [.explaining] ++ cbStatus ++ [.cancelled],
      logs := cbLogs, warnMessages := wt.cbCalls,
      flagReads := 1, consentPrompts := 1,
      adapterCalls := 1, adapterInput := some text }

/-- The `vsCodeAI.explainSelection` command handler. -/
def explainSelection (env : SelectionEnv) : Trace :=
  if env.explainerPresent = false then
    { errorMessages := 1 }
  else if env.enabled = false then
    { statusUpdates := [.cancelled], logs := [.warnDisabled],
      warnMessages := 1, flagReads := 1 }
  else
    let sel := getSelectedText env.editor
    match sel.text with
    | none =>
      { statusUpdates := [.cancelled], logs := sel.logs,
        warnMessages := sel.warnMessages, flagReads := 1 }
    | some selectedText =>
      if env.consent = ConsentAnswer.yes then
        explainPhase selectedText env.languageId env.settleTime env.outcome
      else
        { statusUpdates := [.cancelled], flagReads := 1, consentPrompts := 1 }

/-- The `vsCodeAI.explainActiveFile` command handler.  Unlike the selection
command it only checks for an active editor; the document text itself is
never tested for emptiness. -/
def explainActiveFile (env : FileEnv) : Trace :=
  if env.explainerPresent = false then
    { errorMessages := 1 }
  else if env.enabled = false then
    { statusUpdates := [.cancelled], logs := [.warnDisabled],
      warnMessages := 1, flagReads := 1 }
  else
    match env.document with
    | none =>
      { statusUpdates := [.cancelled], logs := [.warnNoEditor],
        warnMessages := 1, flagReads := 1 }
    | some text =>
      if env.consent = ConsentAnswer.yes then
        explainPhase text env.languageId env.settleTime env.outcome
      else
        { statusUpdates := [.cancelled], flagReads := 1, consentPrompts := 1 }

/-- Result of extension activation. -/
structure ActivationResult where
  /-- whether `explainer` is non-null for the rest of the session -/
  explainerPresent : Bool
  status : Status
  logs : List LogEntry
  errorMessages : Nat
deriving DecidableEq

/-- `activate`: resolves the active adapter once; on failure it logs a
warning, sets the status to `Disabled (invalid adapter)`, shows an error
message, and leaves the explainer null for the whole session. -/
def activate (configuredAdapter : Option String) : ActivationResult :=
  match getActiveAdapter registeredAdapters configuredAdapter with
  | .ok _ => ⟨true, .ready, [.infoActivated], 0⟩
  | .error _ => ⟨false, .disabledInvalid, [.warnActivation], 1⟩

/-- A thirteen-segment CRLF-separated sample text (37 characters). -/
def sampleCrlf : List Char :=
  "a\r\nb\r\nc\r\nd\r\ne\r\nf\r\ng\r\nh\r\ni\r\nj\r\nk\r\nl\r\nm".data

/-- Concrete environment: a valid request whose explainer rejects before
the deadline. -/
def rejectedEnv : SelectionEnv :=
  { explainerPresent := true, enabled := true,
    editor := some "const x = 1;".data, consent := .yes,
    settleTime := 0, outcome := .rejected "boom".data, languageId := [] }

/-- Concrete environment: explain the active file while the active document
is empty. -/
def emptyFileEnv : FileEnv :=
  { explainerPresent := true, enabled := true, document := some [],
    consent := .yes, settleTime := 0, outcome := .fulfilled "r".data,
    languageId := [] }

/-! ## General lemmas about the embedded operations -/

def exceptDecEq {ε α : Type} [DecidableEq ε] [DecidableEq α] :
    DecidableEq (Except ε α)
  | .ok x, .ok y =>
    if h : x = y then isTrue (h ▸ rfl)
    else isFalse (fun hh => h (Except.ok.inj hh))
  | .error x, .error y =>
    if h : x = y then isTrue (h ▸ rfl)
    else isFalse (fun hh => h (Except.error.inj hh))
  | .ok _, .error _ => isFalse Except.noConfusion
  | .error _, .ok _ => isFalse Except.noConfusion

instance {ε α : Type} [DecidableEq ε] [DecidableEq α] :
    DecidableEq (Except ε α) := exceptDecEq

theorem withTimeout_settled_first {ε α : Type} {settleTime ms : Nat}
    (h : settleTime < ms) (oc : Settled ε α) :
    withTimeout settleTime ms oc = ⟨some (settledOutcome oc), 0, false⟩ := by
  simp [withTimeout, opSettle, timerFire, h]

theorem withTimeout_deadline_first {ε α : Type} {settleTime ms : Nat}
    (h : ¬ settleTime < ms) (oc : Settled ε α) :
    withTimeout settleTime ms oc = ⟨some .timeoutError, 1, false⟩ := by
  simp [withTimeout, opSettle, timerFire, h]

/-- With ids unique, lookup by id finds the matching adapter. -/
theorem find_adapter_eq (adapters : List AIAdapter) (id : String)
    (huniq : ∀ a ∈ adapters, ∀ b ∈ adapters, a.id = b.id → a = b)
    (a : AIAdapter) (ha : a ∈ adapters) (haid : a.id = id) :
    adapters.find? (fun x => x.id == id) = some a := by
  have hs : (adapters.find? (fun x => x.id == id)).isSome := by
    rw [List.find?_isSome]
    exact ⟨a, ha, by simp [haid]⟩
  obtain ⟨b, hb⟩ := Option.isSome_iff_exists.mp hs
  have hpb := List.find?_some hb
  simp only [beq_iff_eq] at hpb
  have hbmem : b ∈ adapters := List.mem_of_find?_eq_some hb
  have hba : b = a := huniq b hbmem a ha (hpb.trans haid.symm)
  rw [hb, hba]

/-- `limitExplanation` leaves a text within both limits untouched and
reports no truncation. -/
theorem limitExplanation_of_within (text : List Char)
    (h1 : text.length ≤ MAX_EXPLANATION_CHARS)
    (h2 : (splitLines text).length ≤ MAX_EXPLANATION_LINES) :
    limitExplanation text = ⟨text, false⟩ := by
  have hA : ¬ text.length > MAX_EXPLANATION_CHARS := Nat.not_lt.mpr h1
  have hB : ¬ (splitLines text).length > MAX_EXPLANATION_LINES :=
    Nat.not_lt.mpr h2
  simp [limitExplanation, hA, hB]

/-! ## Claim theorems -/

/-- C5: for a configured adapter id, resolution fails with the
`not registered` error when no registered adapter carries that id, fails
with the `not available` error when the adapter with that id is registered
but unavailable, and returns exactly that adapter otherwise. -/
theorem claim_C5 (adapters : List AIAdapter) (id : String)
    (huniq : ∀ a ∈ adapters, ∀ b ∈ adapters, a.id = b.id → a = b) :
    ((∀ a ∈ adapters, a.id ≠ id) →
      getActiveAdapter adapters (some id) = .error (.unknownAdapter id)) ∧
    (∀ a ∈ adapters, a.id = id → a.isAvailable = false →
      getActiveAdapter adapters (some id) =
        .error (.adapterUnavailable id)) ∧
    (∀ a ∈ adapters, a.id = id → a.isAvailable = true →
      getActiveAdapter adapters (some id) = .ok a) := by
  refine ⟨?_, ?_, ?_⟩
  · intro h
    have hfind : adapters.find? (fun x => x.id == id) = none := by
      rw [List.find?_eq_none]
      intro x hx
      simpa using h x hx
    simp [getActiveAdapter, hfind]
  · intro a ha haid hav
    have hfind := find_adapter_eq adapters id huniq a ha haid
    simp [getActiveAdapter, hfind, hav]
  · intro a ha haid hav
    have hfind := find_adapter_eq adapters id huniq a ha haid
    simp [getActiveAdapter, hfind, hav]

theorem claim_C5_witness :
    getActiveAdapter [AIAdapter.mk "x" false] (some "x") =
      .error (.adapterUnavailable "x") ∧
    getActiveAdapter [AIAdapter.mk "x" false] (some "y") =
      .error (.unknownAdapter "y") ∧
    getActiveAdapter [AIAdapter.mk "local" true] (some "local") =
      .ok (AIAdapter.mk "local" true) := by
  have huniq : ∀ a ∈ [AIAdapter.mk "x" false],
      ∀ b ∈ [AIAdapter.mk "x" false], a.id = b.id → a = b := by
    intro a ha b hb _
    simp only [List.mem_singleton] at ha hb
    rw [ha, hb]
  have huniq2 : ∀ a ∈ [AIAdapter.mk "local" true],
      ∀ b ∈ [AIAdapter.mk "local" true], a.id = b.id → a = b := by
    intro a ha b hb _
    simp only [List.mem_singleton] at ha hb
    rw [ha, hb]
  refine ⟨(claim_C5 [AIAdapter.mk "x" false] "x" huniq).2.1
      (AIAdapter.mk "x" false) (by simp) rfl rfl,
    (claim_C5 [AIAdapter.mk "x" false] "y" huniq).1 ?_,
    (claim_C5 [AIAdapter.mk "local" true] "local" huniq2).2.2
      (AIAdapter.mk "local" true) (by simp) rfl rfl⟩
  intro a ha
  simp only [List.mem_singleton] at ha
  rw [ha]
  decide

/-- C6 counterexample: with no configured id and a registry holding an
unavailable adapter `a` followed by an available adapter `b`, resolution
does not return `b`; it falls back to the default id `local` and fails with
the `not registered` error. -/
theorem claim_C6_counterexample :
    getActiveAdapter [AIAdapter.mk "a" false, AIAdapter.mk "b" true] none =
      .error (.unknownAdapter "local") ∧
    getActiveAdapter [AIAdapter.mk "a" false, AIAdapter.mk "b" true] none ≠
      .ok (AIAdapter.mk "b" true) := by
  constructor
  · rfl
  · decide

/-- C6 amended: when no adapter id is configured, resolution behaves
exactly as if the default id `local` had been configured (lookup by id,
with the unknown/unavailable failures); there is no first-available scan
and no distinct no-adapter-available failure.  On the registry actually
built by the constructor this resolves to the local adapter. -/
theorem claim_C6_amended (adapters : List AIAdapter) :
    getActiveAdapter adapters none = getActiveAdapter adapters (some "local") ∧
    getActiveAdapter registeredAdapters none = .ok LocalAIAdapter :=
  ⟨rfl, rfl⟩

/-- C3: the local explainer always fulfils, with a report built from the
line count (the number of segments of the input split on the line-break
pattern, which equals one plus the number of newline characters) and the
character count (the input length); the empty input yields one line and
zero characters. -/
theorem claim_C3 (input : List Char) (options : ExplainOptions) :
    LocalExplainerStub.explain input options =
      Except.ok (explainReport options.language
        (splitLines input).length input.length) ∧
    (splitLines input).length = 1 + input.count '\n' ∧
    (input = [] → (splitLines input).length = 1 ∧ input.length = 0) := by
  refine ⟨rfl, splitLines_length input, ?_⟩
  rintro rfl
  exact ⟨rfl, rfl⟩

theorem claim_C3_witness :
    (splitLines []).length = 1 ∧ ([] : List Char).length = 0 :=
  (claim_C3 [] {}).2.2 rfl

/-- C2: when the operation settles strictly before the deadline, the guard
propagates the operation's outcome unchanged and the callback never runs;
when the deadline elapses first, the callback runs exactly once and the
guard rejects with the TIMEOUT error even though the operation settles
later; the timer is no longer pending on every exit path. -/
theorem claim_C2 {ε α : Type} (settleTime ms : Nat) (oc : Settled ε α) :
    (settleTime < ms →
      (withTimeout settleTime ms oc).raceOutcome =
        some (settledOutcome oc) ∧
      (withTimeout settleTime ms oc).cbCalls = 0) ∧
    (ms ≤ settleTime →
      (withTimeout settleTime ms oc).cbCalls = 1 ∧
      (withTimeout settleTime ms oc).raceOutcome = some .timeoutError) ∧
    (withTimeout settleTime ms oc).timerPending = false := by
  by_cases h : settleTime < ms
  · rw [withTimeout_settled_first h]
    exact ⟨fun _ => ⟨rfl, rfl⟩, fun hle => absurd h (Nat.not_lt.mpr hle), rfl⟩
  · rw [withTimeout_deadline_first h]
    exact ⟨fun hlt => absurd hlt h, fun _ => ⟨rfl, rfl⟩, rfl⟩

theorem claim_C2_witness :
    ((withTimeout 5 2000 (Settled.fulfilled 7 : Settled Nat Nat)).raceOutcome =
        some (.ok 7) ∧
      (withTimeout 5 2000 (Settled.fulfilled 7 : Settled Nat Nat)).cbCalls = 0) ∧
    ((withTimeout 2500 2000 (Settled.rejected 3 : Settled Nat Nat)).cbCalls = 1 ∧
      (withTimeout 2500 2000 (Settled.rejected 3 : Settled Nat Nat)).raceOutcome =
        some .timeoutError) ∧
    (withTimeout 2500 2000 (Settled.rejected 3 : Settled Nat Nat)).timerPending =
      false :=
  ⟨(claim_C2 5 2000 (Settled.fulfilled 7)).1 (by decide),
   (claim_C2 2500 2000 (Settled.rejected 3)).2.1 (by decide),
   (claim_C2 2500 2000 (Settled.rejected 3)).2.2⟩

theorem explainPhase_ok {text lang : List Char} {settleTime : Nat}
    {v : List Char} (h : settleTime < 2000) :
    explainPhase text lang settleTime (.fulfilled v) =
      { statusUpdates := [.explaining, .completed],
        flagReads := 1, consentPrompts := 1,
        adapterCalls := 1, adapterInput := some text,
        presented := some (presentExplanation v
          ⟨lang, (splitLines text).length, text.length⟩) } := by
  rw [explainPhase, withTimeout_settled_first h]
  rfl

theorem explainPhase_rejected {text lang : List Char} {settleTime : Nat}
    {e : List Char} (h : settleTime < 2000) :
    explainPhase text lang settleTime (.rejected e) =
      { statusUpdates := [.explaining, .cancelled],
        flagReads := 1, consentPrompts := 1,
        adapterCalls := 1, adapterInput := some text } := by
  rw [explainPhase, withTimeout_settled_first h]
  rfl

theorem explainPhase_timeout {text lang : List Char} {settleTime : Nat}
    {oc : Settled (List Char) (List Char)} (h : ¬ settleTime < 2000) :
    explainPhase text lang settleTime oc =
      { statusUpdates := [.explaining, .cancelled, .cancelled],
        logs := [.warnTimeout], warnMessages := 1,
        flagReads := 1, consentPrompts := 1,
        adapterCalls := 1, adapterInput := some text } := by
  rw [explainPhase, withTimeout_deadline_first h]
  rfl

theorem explainPhase_calls (text lang : List Char) (settleTime : Nat)
    (oc : Settled (List Char) (List Char)) :
    (explainPhase text lang settleTime oc).adapterCalls = 1 ∧
    (explainPhase text lang settleTime oc).adapterInput = some text := by
  by_cases h : settleTime < 2000
  · match oc with
    | .fulfilled v => rw [explainPhase_ok h]; exact ⟨rfl, rfl⟩
    | .rejected e => rw [explainPhase_rejected h]; exact ⟨rfl, rfl⟩
  · rw [explainPhase_timeout h]; exact ⟨rfl, rfl⟩

/-- C9: while the enable flag reads false, `explainSelection` warns (one
warning message and one warning log entry), never issues the consent
prompt, never contacts an adapter, and the single status update of the
request is the `Cancelled` value the disabled branch sets. -/
theorem claim_C9 (env : SelectionEnv) (hp : env.explainerPresent = true)
    (hd : env.enabled = false) :
    explainSelection env =
      { statusUpdates := [.cancelled], logs := [.warnDisabled],
        warnMessages := 1, flagReads := 1 } := by
  simp [explainSelection, hp, hd]

theorem claim_C9_witness :
    explainSelection
      { explainerPresent := true, enabled := false, editor := none,
        consent := .dismissed, settleTime := 0, outcome := .fulfilled [],
        languageId := [] } =
      { statusUpdates := [.cancelled], logs := [.warnDisabled],
        warnMessages := 1, flagReads := 1 } :=
  claim_C9 _ rfl rfl

/-- C8: when adapter resolution fails at activation, the activation shows a
user-visible error and disables the session; any later invocation of either
command in that session (the explainer stayed null) only shows an error
message: it reads no flag, prompts for no consent, contacts no adapter. -/
theorem claim_C8 (cfg : Option String) (e : RegistryError)
    (envS : SelectionEnv) (envF : FileEnv)
    (hres : getActiveAdapter registeredAdapters cfg = .error e) :
    (activate cfg).explainerPresent = false ∧
    (activate cfg).status = .disabledInvalid ∧
    (activate cfg).errorMessages = 1 ∧
    (envS.explainerPresent = (activate cfg).explainerPresent →
      explainSelection envS = { errorMessages := 1 }) ∧
    (envF.explainerPresent = (activate cfg).explainerPresent →
      explainActiveFile envF = { errorMessages := 1 }) := by
  have hact : activate cfg = ⟨false, .disabledInvalid, [.warnActivation], 1⟩ := by
    simp [activate, hres]
  rw [hact]
  refine ⟨rfl, rfl, rfl, ?_, ?_⟩
  · intro h
    simp [explainSelection, h]
  · intro h
    simp [explainActiveFile, h]

theorem claim_C8_witness :
    (activate (some "remote")).explainerPresent = false ∧
    (activate (some "remote")).status = .disabledInvalid ∧
    (activate (some "remote")).errorMessages = 1 ∧
    explainSelection
      { explainerPresent := false, enabled := true,
        editor := some "const x = 1;".data, consent := .yes,
        settleTime := 0, outcome := .fulfilled [], languageId := [] } =
      { errorMessages := 1 } ∧
    explainActiveFile
      { explainerPresent := false, enabled := true,
        document := some "const x = 1;".data, consent := .yes,
        settleTime := 0, outcome := .fulfilled [], languageId := [] } =
      { errorMessages := 1 } := by
  have h := claim_C8 (some "remote") (.unknownAdapter "remote")
    { explainerPresent := false, enabled := true,
      editor := some "const x = 1;".data, consent := .yes,
      settleTime := 0, outcome := .fulfilled [], languageId := [] }
    { explainerPresent := false, enabled := true,
      document := some "const x = 1;".data, consent := .yes,
      settleTime := 0, outcome := .fulfilled [], languageId := [] }
    rfl
  exact ⟨h.1, h.2.1, h.2.2.1, h.2.2.2.1 rfl, h.2.2.2.2 rfl⟩

theorem explainSelection_noExplainer {env : SelectionEnv}
    (h : env.explainerPresent = false) :
    explainSelection env = { errorMessages := 1 } := by
  simp [explainSelection, h]

theorem explainSelection_noEditor {env : SelectionEnv}
    (hp : env.explainerPresent = true) (he : env.enabled = true)
    (hed : env.editor = none) :
    explainSelection env =
      { statusUpdates := [.cancelled], logs := [.warnNoEditor],
        warnMessages := 1, flagReads := 1 } := by
  simp [explainSelection, hp, he, hed, getSelectedText]

theorem explainSelection_noSelection {env : SelectionEnv}
    (hp : env.explainerPresent = true) (he : env.enabled = true)
    (hed : env.editor = some []) :
    explainSelection env =
      { statusUpdates := [.cancelled], logs := [.warnNoSelection],
        warnMessages := 1, flagReads := 1 } := by
  simp [explainSelection, hp, he, hed, getSelectedText]

theorem explainSelection_declined {env : SelectionEnv} {c : Char}
    {cs : List Char}
    (hp : env.explainerPresent = true) (he : env.enabled = true)
    (hed : env.editor = some (c :: cs)) (hc : env.consent ≠ .yes) :
    explainSelection env =
      { statusUpdates := [.cancelled], flagReads := 1,
        consentPrompts := 1 } := by
  simp [explainSelection, hp, he, hed, getSelectedText, hc]

theorem explainSelection_consented {env : SelectionEnv} {c : Char}
    {cs : List Char}
    (hp : env.explainerPresent = true) (he : env.enabled = true)
    (hed : env.editor = some (c :: cs)) (hc : env.consent = .yes) :
    explainSelection env =
      explainPhase (c :: cs) env.languageId env.settleTime env.outcome := by
  simp [explainSelection, hp, he, hed, getSelectedText, hc]

theorem explainActiveFile_noExplainer {env : FileEnv}
    (h : env.explainerPresent = false) :
    explainActiveFile env = { errorMessages := 1 } := by
  simp [explainActiveFile, h]

theorem explainActiveFile_disabled {env : FileEnv}
    (hp : env.explainerPresent = true) (hd : env.enabled = false) :
    explainActiveFile env =
      { statusUpdates := [.cancelled], logs := [.warnDisabled],
        warnMessages := 1, flagReads := 1 } := by
  simp [explainActiveFile, hp, hd]

theorem explainActiveFile_noEditor {env : FileEnv}
    (hp : env.explainerPresent = true) (he : env.enabled = true)
    (hed : env.document = none) :
    explainActiveFile env =
      { statusUpdates := [.cancelled], logs := [.warnNoEditor],
        warnMessages := 1, flagReads := 1 } := by
  simp [explainActiveFile, hp, he, hed]

theorem explainActiveFile_declined {env : FileEnv} {t : List Char}
    (hp : env.explainerPresent = true) (he : env.enabled = true)
    (hed : env.document = some t) (hc : env.consent ≠ .yes) :
    explainActiveFile env =
      { statusUpdates := [.cancelled], flagReads := 1,
        consentPrompts := 1 } := by
  simp [explainActiveFile, hp, he, hed, hc]

theorem explainActiveFile_consented {env : FileEnv} {t : List Char}
    (hp : env.explainerPresent = true) (he : env.enabled = true)
    (hed : env.document = some t) (hc : env.consent = .yes) :
    explainActiveFile env =
      explainPhase t env.languageId env.settleTime env.outcome := by
  simp [explainActiveFile, hp, he, hed, hc]

theorem explainSelection_disabled {env : SelectionEnv}
    (hp : env.explainerPresent = true) (hd : env.enabled = false) :
    explainSelection env =
      { statusUpdates := [.cancelled], logs := [.warnDisabled],
        warnMessages := 1, flagReads := 1 } := by
  simp [explainSelection, hp, hd]

/-- Concrete environment: a valid selection request that declines consent. -/
def declinedEnv : SelectionEnv :=
  { explainerPresent := true, enabled := true,
    editor := some "const x = 1;".data, consent := .no,
    settleTime := 0, outcome := .fulfilled [], languageId := [] }

/-- Concrete environment: a fully consented selection request answered in
time. -/
def consentedEnv : SelectionEnv :=
  { explainerPresent := true, enabled := true, editor := some "ab".data,
    consent := .yes, settleTime := 5, outcome := .fulfilled "r".data,
    languageId := [] }

/-- C1 counterexample: `explainActiveFile` on an empty active document (with
the feature enabled and consent affirmative) still invokes the adapter, with
the empty input — the claimed non-empty-input gate does not exist on the
active-file path. -/
theorem claim_C1_counterexample :
    (explainActiveFile emptyFileEnv).adapterCalls = 1 ∧
    (explainActiveFile emptyFileEnv).adapterInput = some [] := by decide

/-- C1 amended: the adapter is invoked only when the enable flag read true
and consent was the explicit `Yes`; on the selection path the input is
additionally guaranteed non-empty, while the active-file path only
guarantees that an active document's text (possibly empty) was obtained.
Any non-`Yes` consent answer ends the request with the `Cancelled` status
and the adapter is never called. -/
theorem claim_C1_amended (envS : SelectionEnv) (envF : FileEnv) :
    ((explainSelection envS).adapterCalls ≠ 0 →
      envS.explainerPresent = true ∧ envS.enabled = true ∧
      envS.consent = .yes ∧
      ∃ c cs, envS.editor = some (c :: cs) ∧
        (explainSelection envS).adapterInput = some (c :: cs)) ∧
    ((explainActiveFile envF).adapterCalls ≠ 0 →
      envF.explainerPresent = true ∧ envF.enabled = true ∧
      envF.consent = .yes ∧
      ∃ t, envF.document = some t ∧
        (explainActiveFile envF).adapterInput = some t) ∧
    (envS.consent ≠ .yes →
      (explainSelection envS).adapterCalls = 0 ∧
      ((explainSelection envS).consentPrompts = 1 →
        (explainSelection envS).statusUpdates = [.cancelled])) ∧
    (envF.consent ≠ .yes →
      (explainActiveFile envF).adapterCalls = 0 ∧
      ((explainActiveFile envF).consentPrompts = 1 →
        (explainActiveFile envF).statusUpdates = [.cancelled])) := by
  refine ⟨?_, ?_, ?_, ?_⟩
  · intro h
    cases hp : envS.explainerPresent with
    | false => rw [explainSelection_noExplainer hp] at h; exact absurd rfl h
    | true =>
      cases he : envS.enabled with
      | false => rw [explainSelection_disabled hp he] at h; exact absurd rfl h
      | true =>
        rcases hed : envS.editor with _ | sel
        · rw [explainSelection_noEditor hp he hed] at h; exact absurd rfl h
        · rcases sel with _ | ⟨c, cs⟩
          · rw [explainSelection_noSelection hp he hed] at h
            exact absurd rfl h
          · by_cases hc : envS.consent = .yes
            · refine ⟨rfl, rfl, hc, c, cs, rfl, ?_⟩
              rw [explainSelection_consented hp he hed hc]
              exact (explainPhase_calls _ _ _ _).2
            · rw [explainSelection_declined hp he hed hc] at h
              exact absurd rfl h
  · intro h
    cases hp : envF.explainerPresent with
    | false => rw [explainActiveFile_noExplainer hp] at h; exact absurd rfl h
    | true =>
      cases he : envF.enabled with
      | false => rw [explainActiveFile_disabled hp he] at h; exact absurd rfl h
      | true =>
        rcases hed : envF.document with _ | t
        · rw [explainActiveFile_noEditor hp he hed] at h; exact absurd rfl h
        · by_cases hc : envF.consent = .yes
          · refine ⟨rfl, rfl, hc, t, rfl, ?_⟩
            rw [explainActiveFile_consented hp he hed hc]
            exact (explainPhase_calls _ _ _ _).2
          · rw [explainActiveFile_declined hp he hed hc] at h
            exact absurd rfl h
  · intro hc
    cases hp : envS.explainerPresent with
    | false => rw [explainSelection_noExplainer hp]; exact ⟨rfl, by decide⟩
    | true =>
      cases he : envS.enabled with
      | false => rw [explainSelection_disabled hp he]; exact ⟨rfl, by decide⟩
      | true =>
        rcases hed : envS.editor with _ | sel
        · rw [explainSelection_noEditor hp he hed]; exact ⟨rfl, by decide⟩
        · rcases sel with _ | ⟨c, cs⟩
          · rw [explainSelection_noSelection hp he hed]
            exact ⟨rfl, by decide⟩
          · rw [explainSelection_declined hp he hed hc]
            exact ⟨rfl, fun _ => rfl⟩
  · intro hc
    cases hp : envF.explainerPresent with
    | false => rw [explainActiveFile_noExplainer hp]; exact ⟨rfl, by decide⟩
    | true =>
      cases he : envF.enabled with
      | false => rw [explainActiveFile_disabled hp he]; exact ⟨rfl, by decide⟩
      | true =>
        rcases hed : envF.document with _ | t
        · rw [explainActiveFile_noEditor hp he hed]; exact ⟨rfl, by decide⟩
        · rw [explainActiveFile_declined hp he hed hc]
          exact ⟨rfl, fun _ => rfl⟩

theorem claim_C1_witness :
    ((explainSelection declinedEnv).adapterCalls = 0 ∧
      ((explainSelection declinedEnv).consentPrompts = 1 →
        (explainSelection declinedEnv).statusUpdates = [.cancelled])) ∧
    (consentedEnv.explainerPresent = true ∧ consentedEnv.enabled = true ∧
      consentedEnv.consent = .yes ∧
      ∃ c cs, consentedEnv.editor = some (c :: cs) ∧
        (explainSelection consentedEnv).adapterInput = some (c :: cs)) :=
  ⟨(claim_C1_amended declinedEnv emptyFileEnv).2.2.1 (by decide),
   (claim_C1_amended consentedEnv emptyFileEnv).1 (by decide)⟩

/-- Concrete environment: a valid selection request whose explainer has not
settled when the 2000 ms deadline fires. -/
def timeoutEnv : SelectionEnv :=
  { explainerPresent := true, enabled := true, editor := some "ab".data,
    consent := .yes, settleTime := 2000, outcome := .fulfilled "r".data,
    languageId := [] }

/-- C7 counterexample: a request whose explainer rejects before the
deadline is a failure (it ends with the `Cancelled` status), yet the bare
`catch` writes no log entry at all — not exactly one. -/
theorem claim_C7_counterexample :
    (explainSelection rejectedEnv).statusUpdates = [.explaining, .cancelled] ∧
    (explainSelection rejectedEnv).logs = [] := by decide

/-- C7 amended: every failure is caught inside the handler (each case below
yields a defined trace; nothing escapes).  The disabled, no-editor,
no-selection and timeout failures update the status to `Cancelled` and
write exactly one log entry describing the cause; a declined consent and a
non-timeout explainer failure update the status to `Cancelled` but write no
log entry; the missing-explainer rejection only shows an error message,
with no log entry and no status update. -/
theorem claim_C7_amended (env : SelectionEnv) :
    (env.explainerPresent = false →
      explainSelection env = { errorMessages := 1 }) ∧
    (env.explainerPresent = true → env.enabled = false →
      explainSelection env =
        { statusUpdates := [.cancelled], logs := [.warnDisabled],
          warnMessages := 1, flagReads := 1 }) ∧
    (env.explainerPresent = true → env.enabled = true → env.editor = none →
      explainSelection env =
        { statusUpdates := [.cancelled], logs := [.warnNoEditor],
          warnMessages := 1, flagReads := 1 }) ∧
    (env.explainerPresent = true → env.enabled = true →
      env.editor = some [] →
      explainSelection env =
        { statusUpdates := [.cancelled], logs := [.warnNoSelection],
          warnMessages := 1, flagReads := 1 }) ∧
    (env.explainerPresent = true → env.enabled = true →
      env.consent ≠ .yes → ∀ c cs, env.editor = some (c :: cs) →
      explainSelection env =
        { statusUpdates := [.cancelled], flagReads := 1,
          consentPrompts := 1 }) ∧
    (env.explainerPresent = true → env.enabled = true →
      env.consent = .yes → ¬ env.settleTime < 2000 →
      ∀ c cs, env.editor = some (c :: cs) →
      explainSelection env =
        { statusUpdates := [.explaining, .cancelled, .cancelled],
          logs := [.warnTimeout], warnMessages := 1, flagReads := 1,
          consentPrompts := 1, adapterCalls := 1,
          adapterInput := some (c :: cs) }) ∧
    (env.explainerPresent = true → env.enabled = true →
      env.consent = .yes → env.settleTime < 2000 →
      ∀ c cs e, env.editor = some (c :: cs) →
      env.outcome = .rejected e →
      explainSelection env =
        { statusUpdates := [.explaining, .cancelled], flagReads := 1,
          consentPrompts := 1, adapterCalls := 1,
          adapterInput := some (c :: cs) }) := by
  refine ⟨fun hp => explainSelection_noExplainer hp,
    fun hp hd => explainSelection_disabled hp hd,
    fun hp he hed => explainSelection_noEditor hp he hed,
    fun hp he hed => explainSelection_noSelection hp he hed,
    fun hp he hc c cs hed => explainSelection_declined hp he hed hc,
    fun hp he hc hst c cs hed => ?_,
    fun hp he hc hst c cs e hed hoc => ?_⟩
  · rw [explainSelection_consented hp he hed hc, explainPhase_timeout hst]
  · rw [explainSelection_consented hp he hed hc, hoc,
      explainPhase_rejected hst]

theorem claim_C7_witness :
    explainSelection timeoutEnv =
      { statusUpdates := [.explaining, .cancelled, .cancelled],
        logs := [.warnTimeout], warnMessages := 1, flagReads := 1,
        consentPrompts := 1, adapterCalls := 1,
        adapterInput := some ('a' :: ['b']) } ∧
    explainSelection rejectedEnv =
      { statusUpdates := [.explaining, .cancelled], flagReads := 1,
        consentPrompts := 1, adapterCalls := 1,
        adapterInput := some ('c' :: "onst x = 1;".data) } :=
  ⟨(claim_C7_amended timeoutEnv).2.2.2.2.2.1 rfl rfl rfl
      (by decide) 'a' ['b'] rfl,
   (claim_C7_amended rejectedEnv).2.2.2.2.2.2 rfl rfl rfl
      (by decide) 'c' "onst x = 1;".data "boom".data rfl rfl⟩

theorem splitLines_joinLines_take (ls : List (List Char)) (k : Nat)
    (hk : 0 < k) (hnl : ∀ l ∈ ls, '\n' ∉ l) (hlen : k ≤ ls.length) :
    (splitLines (joinLines (ls.take k))).length = k := by
  rw [splitLines_length]
  have hnl2 : ∀ l ∈ ls.take k, '\n' ∉ l :=
    fun l hl => hnl l (List.take_subset _ _ hl)
  have hcount := joinLines_count _ hnl2
  have hlen2 : (ls.take k).length = k := by
    rw [List.length_take]
    omega
  have hne : ls.take k ≠ [] := by
    intro h
    rw [h] at hlen2
    simp at hlen2
    omega
  rw [if_neg hne, hlen2] at hcount
  omega

/-- The limited text never exceeds the character limit. -/
theorem limitExplanation_text_length (text : List Char) :
    (limitExplanation text).text.length ≤ MAX_EXPLANATION_CHARS := by
  by_cases hA : text.length > MAX_EXPLANATION_CHARS
  · by_cases hB : (splitLines (text.take MAX_EXPLANATION_CHARS)).length >
        MAX_EXPLANATION_LINES
    · have htext : (limitExplanation text).text =
          joinLines ((splitLines (text.take MAX_EXPLANATION_CHARS)).take
            MAX_EXPLANATION_LINES) := by
        simp [limitExplanation, hA, hB]
      rw [htext]
      calc (joinLines ((splitLines (text.take MAX_EXPLANATION_CHARS)).take
              MAX_EXPLANATION_LINES)).length
          ≤ (joinLines (splitLines (text.take MAX_EXPLANATION_CHARS))).length :=
            joinLines_take_length _ _
        _ ≤ (text.take MAX_EXPLANATION_CHARS).length :=
            joinLines_splitLines_length _
        _ ≤ MAX_EXPLANATION_CHARS := by
            rw [List.length_take]
            omega
    · have htext : (limitExplanation text).text =
          text.take MAX_EXPLANATION_CHARS := by
        simp [limitExplanation, hA, hB]
      rw [htext, List.length_take]
      omega
  · have hle : text.length ≤ MAX_EXPLANATION_CHARS := Nat.not_lt.mp hA
    by_cases hB : (splitLines text).length > MAX_EXPLANATION_LINES
    · have htext : (limitExplanation text).text =
          joinLines ((splitLines text).take MAX_EXPLANATION_LINES) := by
        simp [limitExplanation, hA, hB]
      rw [htext]
      calc (joinLines ((splitLines text).take MAX_EXPLANATION_LINES)).length
          ≤ (joinLines (splitLines text)).length := joinLines_take_length _ _
        _ ≤ text.length := joinLines_splitLines_length _
        _ ≤ MAX_EXPLANATION_CHARS := hle
    · have htext : (limitExplanation text).text = text := by
        simp [limitExplanation, hA, hB]
      rw [htext]
      exact hle

/-- The limited text never exceeds the line limit. -/
theorem limitExplanation_text_lines (text : List Char) :
    (splitLines (limitExplanation text).text).length ≤
      MAX_EXPLANATION_LINES := by
  by_cases hA : text.length > MAX_EXPLANATION_CHARS
  · by_cases hB : (splitLines (text.take MAX_EXPLANATION_CHARS)).length >
        MAX_EXPLANATION_LINES
    · have htext : (limitExplanation text).text =
          joinLines ((splitLines (text.take MAX_EXPLANATION_CHARS)).take
            MAX_EXPLANATION_LINES) := by
        simp [limitExplanation, hA, hB]
      rw [htext, splitLines_joinLines_take _ _ (by decide)
        (splitLines_no_newline _) (Nat.le_of_lt hB)]
    · have htext : (limitExplanation text).text =
          text.take MAX_EXPLANATION_CHARS := by
        simp [limitExplanation, hA, hB]
      rw [htext]
      exact Nat.not_lt.mp hB
  · by_cases hB : (splitLines text).length > MAX_EXPLANATION_LINES
    · have htext : (limitExplanation text).text =
          joinLines ((splitLines text).take MAX_EXPLANATION_LINES) := by
        simp [limitExplanation, hA, hB]
      rw [htext, splitLines_joinLines_take _ _ (by decide)
        (splitLines_no_newline _) (Nat.le_of_lt hB)]
    · have htext : (limitExplanation text).text = text := by
        simp [limitExplanation, hA, hB]
      rw [htext]
      exact Nat.not_lt.mp hB

/-- C4: the limiter truncates to the character limit first and the line
limit second, the truncation flag is the OR of the two checks (the line
check performed on the character-truncated text), the truncation notice
block appears in the rendered output exactly when the flag is set, and a
text within both limits passes through unchanged with no flag. -/
theorem claim_C4 (text : List Char) (meta : PresentMeta) :
    (limitExplanation text).truncated =
      (decide (text.length > MAX_EXPLANATION_CHARS) ||
       decide ((splitLines (if text.length > MAX_EXPLANATION_CHARS then
         text.take MAX_EXPLANATION_CHARS else text)).length >
         MAX_EXPLANATION_LINES)) ∧
    ((limitExplanation text).truncated = true →
      presentExplanation text meta =
        ["=== AI Explanation ===".data, [], "Summary:".data,
         (limitExplanation text).text, [], "[Output truncated]".data,
         [], "Metadata:".data,
         "- Language: ".data ++ meta.language,
         "- Lines: ".data ++ Nat.toDigits 10 meta.lines,
         "- Characters: ".data ++ Nat.toDigits 10 meta.characters]) ∧
    ((limitExplanation text).truncated = false →
      presentExplanation text meta =
        ["=== AI Explanation ===".data, [], "Summary:".data,
         (limitExplanation text).text,
         [], "Metadata:".data,
         "- Language: ".data ++ meta.language,
         "- Lines: ".data ++ Nat.toDigits 10 meta.lines,
         "- Characters: ".data ++ Nat.toDigits 10 meta.characters]) ∧
    (text.length ≤ MAX_EXPLANATION_CHARS →
      (splitLines text).length ≤ MAX_EXPLANATION_LINES →
      limitExplanation text = ⟨text, false⟩) := by
  refine ⟨?_, ?_, ?_, limitExplanation_of_within text⟩
  · by_cases hA : text.length > MAX_EXPLANATION_CHARS
    · by_cases hB : (splitLines (text.take MAX_EXPLANATION_CHARS)).length >
          MAX_EXPLANATION_LINES
      · simp [limitExplanation, hA, hB]
      · simp [limitExplanation, hA, hB]
    · by_cases hB : (splitLines text).length > MAX_EXPLANATION_LINES
      · simp [limitExplanation, hA, hB]
      · simp [limitExplanation, hA, hB]
  · intro h
    simp [presentExplanation, h]
  · intro h
    simp [presentExplanation, h]

theorem claim_C4_witness :
    limitExplanation "hello".data = ⟨"hello".data, false⟩ ∧
    presentExplanation sampleCrlf ⟨[], 13, 37⟩ =
      ["=== AI Explanation ===".data, [], "Summary:".data,
       (limitExplanation sampleCrlf).text, [], "[Output truncated]".data,
       [], "Metadata:".data,
       "- Language: ".data ++ [],
       "- Lines: ".data ++ Nat.toDigits 10 13,
       "- Characters: ".data ++ Nat.toDigits 10 37] ∧
    presentExplanation "hello".data ⟨[], 1, 5⟩ =
      ["=== AI Explanation ===".data, [], "Summary:".data,
       (limitExplanation "hello".data).text,
       [], "Metadata:".data,
       "- Language: ".data ++ [],
       "- Lines: ".data ++ Nat.toDigits 10 1,
       "- Characters: ".data ++ Nat.toDigits 10 5] :=
  ⟨(claim_C4 "hello".data ⟨[], 1, 5⟩).2.2.2 (by decide) (by decide),
   (claim_C4 sampleCrlf ⟨[], 13, 37⟩).2.1 (by decide),
   (claim_C4 "hello".data ⟨[], 1, 5⟩).2.2.1 (by decide)⟩

/-- C10: when only the character limit fires the output is the length-500
prefix of the input; when the line limit fires the output is the first
twelve segments of the character-truncated text rejoined with a bare LF —
on the concrete CRLF sample this output is not a prefix of the input — and
the limiter is idempotent: applied to its own output it changes nothing
and reports no truncation. -/
theorem claim_C10 (text : List Char) :
    (text.length > MAX_EXPLANATION_CHARS →
      ¬ (splitLines (text.take MAX_EXPLANATION_CHARS)).length >
          MAX_EXPLANATION_LINES →
      (limitExplanation text).text = text.take MAX_EXPLANATION_CHARS) ∧
    ((splitLines (if text.length > MAX_EXPLANATION_CHARS then
        text.take MAX_EXPLANATION_CHARS else text)).length >
        MAX_EXPLANATION_LINES →
      (limitExplanation text).text =
        joinLines ((splitLines (if text.length > MAX_EXPLANATION_CHARS then
          text.take MAX_EXPLANATION_CHARS else text)).take
          MAX_EXPLANATION_LINES)) ∧
    ((limitExplanation sampleCrlf).text.isPrefixOf sampleCrlf = false ∧
      (limitExplanation sampleCrlf).text =
        joinLines ((splitLines sampleCrlf).take MAX_EXPLANATION_LINES)) ∧
    limitExplanation ((limitExplanation text).text) =
      ⟨(limitExplanation text).text, false⟩ := by
  refine ⟨?_, ?_, by decide, ?_⟩
  · intro hA hB
    simp [limitExplanation, hA, hB]
  · intro hB
    by_cases hA : text.length > MAX_EXPLANATION_CHARS
    · rw [if_pos hA] at hB ⊢
      simp [limitExplanation, hA, hB]
    · rw [if_neg hA] at hB ⊢
      simp [limitExplanation, hA, hB]
  · exact limitExplanation_of_within _ (limitExplanation_text_length text)
      (limitExplanation_text_lines text)

set_option maxRecDepth 4000 in
theorem claim_C10_witness :
    (limitExplanation (List.replicate 501 'a')).text =
      (List.replicate 501 'a').take MAX_EXPLANATION_CHARS ∧
    (limitExplanation sampleCrlf).text =
      joinLines ((splitLines sampleCrlf).take MAX_EXPLANATION_LINES) :=
  ⟨(claim_C10 (List.replicate 501 'a')).1 (by decide) (by decide),
   (claim_C10 sampleCrlf).2.1 (by decide)⟩
